import Mathlib

/-!
Verification of the route-registration layer of `ninja_extra`
(`ninja_extra/controllers/route/__init__.py`).

The embedding below translates `Route.__init__`, `Route._create_route_function`
and the per-verb decorator factories into Lean.  Python values that can appear
in the `response` argument are modelled by small inductive types; Python dicts
are modelled as association lists built exclusively through `updateKV`, which
mirrors CPython dict assignment (replace in place when the key is present,
append otherwise).  Exceptions are modelled with `Except`.
-/

set_option autoImplicit false

deriving instance DecidableEq for Except

namespace NinjaExtraRoute

/-- An opaque Python value: an integer, a string standing for any other
object (schemas, types, class references), or `None`. -/
inductive Atom where
  | int (n : Int)
  | str (s : String)
  | none
deriving DecidableEq

/-- The model of Python's `str.upper()`: upper-case every character (adequate
for the ASCII verb tokens this layer compares; defined over the character
list so that concrete instances evaluate). -/
def pyUpper (s : String) : String :=
  ⟨s.data.map Char.toUpper⟩

/-- Modelled from the spec: `ROUTE_METHODS` comes from `ninja_extra.constants`,
which is outside this source slice; the spec fixes the allowed-verb set as
{GET, POST, PUT, PATCH, DELETE}. -/
def ROUTE_METHODS : List String := ["GET", "POST", "PUT", "PATCH", "DELETE"]

def GET : String := "GET"
def POST : String := "POST"
def PUT : String := "PUT"
def PATCH : String := "PATCH"
def DELETE : String := "DELETE"

/-- The `methods` argument of `Route.__init__` is annotated `List[str]` but the
code guards `isinstance(methods, list)` at runtime, so a caller may pass any
value; a non-list value is kept opaque. -/
inductive MethodsArg where
  | pylist (ms : List String)
  | nonList (v : Atom)
deriving DecidableEq

/-- One element of a list-shaped `response` argument.
`cr` covers both accepted typed-response forms — a class whose metaclass is
`ControllerResponseMeta` and a `ControllerResponse` instance — since
`Route.__init__` treats both identically through `status_code`/`get_schema()`
(modelled from the spec: `ControllerResponse` lives outside this slice; the
spec describes it as a value declaring an integer status code and a schema). -/
inductive RItem where
  | cr (status : Int) (schema : Atom)
  | pydict (d : List (Atom × Atom))
  | tup (xs : List Atom)
  | other (v : Atom)
deriving DecidableEq

/-- The `response` argument of `Route.__init__`: the `NOT_SET` sentinel, a
typed-response value, a dict, a list of elements, or any other single value. -/
inductive RArg where
  | notSet
  | cr (status : Int) (schema : Atom)
  | pydict (d : List (Atom × Atom))
  | pylist (items : List RItem)
  | other (v : Atom)
deriving DecidableEq

/-- The normalized `response` value stored in the route-parameter record. -/
inductive StoredResp where
  | notSet
  | mapping (d : List (Atom × Atom))
  | passthrough (v : Atom)
deriving DecidableEq

/-- CPython dict assignment `d[k] = v`: replace the entry in place when the
key is present, append the pair otherwise. -/
def updateKV : List (Atom × Atom) → Atom → Atom → List (Atom × Atom)
  | [], k, v => [(k, v)]
  | p :: d, k, v => if p.1 = k then (k, v) :: d else p :: updateKV d k v

/-- `d.update(ps)`: fold dict assignment over the pairs of `ps` in order. -/
def updatePairs (d : List (Atom × Atom)) (ps : List (Atom × Atom)) : List (Atom × Atom) :=
  ps.foldl (fun a p => updateKV a p.1 p.2) d

/-- The dict value denoted by a Python dict display with pairs `ps`. -/
def pyDictOf (ps : List (Atom × Atom)) : List (Atom × Atom) :=
  updatePairs [] ps

/-- Dict lookup `d[k]` (as an option). -/
def alookup : List (Atom × Atom) → Atom → Option Atom
  | [], _ => Option.none
  | p :: d, k => if p.1 = k then some p.2 else alookup d k

/-- The exceptions `Route.__init__` can raise, kept structured; `renderError`
below produces the exact message strings.  The first three constructors
correspond to `RouteInvalidParameterException`, the last to the `IndexError`
escaping from `item[0]` / `item[1]` on a too-short tuple. -/
inductive RouteError where
  | methodsNotList
  | methodsNotAllowed (bad : List String)
  | invalidResponseConfig (orig : List RItem)
  | indexError
deriving DecidableEq

/-- Whether the raised exception is a `RouteInvalidParameterException`. -/
def RouteError.isInvalidParameter : RouteError → Bool
  | .indexError => false
  | _ => true

def Atom.render : Atom → String
  | .int n => toString n
  | .str s => s
  | .none => "None"

def RItem.render : RItem → String
  | .cr status schema => "ControllerResponse(" ++ toString status ++ ", " ++ schema.render ++ ")"
  | .pydict d =>
      "\x7b" ++ String.intercalate ", " (d.map (fun p => p.1.render ++ ": " ++ p.2.render)) ++ "\x7d"
  | .tup xs => "(" ++ String.intercalate ", " (xs.map Atom.render) ++ ")"
  | .other v => v.render

def renderItems (items : List RItem) : String :=
  "[" ++ String.intercalate ", " (items.map RItem.render) ++ "]"

/-- The message carried by each exception, mirroring the source's strings. -/
def renderError : RouteError → String
  | .methodsNotList => "methods must be a list"
  | .methodsNotAllowed bad => "Method " ++ String.intercalate "," bad ++ " not allowed"
  | .invalidResponseConfig orig => "Invalid response configuration: " ++ renderItems orig
  | .indexError => "tuple index out of range"

/-- The facts about the decorated handler that the builder consumes:
`is_async view_func` (from `ninja.signature`, an external collaborator) and
`get_type_hints(view_func).get("return")`.  Return annotations are opaque
type objects, hence truthy, so `or NOT_SET` only turns an absent annotation
into the sentinel. -/
structure ViewFunc where
  is_async : Bool
  returnAnnotation : Option Atom
deriving DecidableEq

/-- The `auth` argument: the `NOT_SET` sentinel or an opaque value, passed
through without validation. -/
inductive AuthArg where
  | notSet
  | val (a : Atom)
deriving DecidableEq

/-- The pass-through metadata keyword arguments of `Route.__init__`. -/
structure RouteMeta where
  operation_id : Option String
  summary : Option String
  description : Option String
  tags : Option (List String)
  deprecated : Option Bool
  by_alias : Bool
  exclude_unset : Bool
  exclude_defaults : Bool
  exclude_none : Bool
  url_name : Option String
  include_in_schema : Bool
deriving DecidableEq

/-- All metadata arguments at their declared default values. -/
def defaultRouteMeta : RouteMeta :=
  ⟨Option.none, Option.none, Option.none, Option.none, Option.none,
   false, false, false, false, Option.none, true⟩

/-- Modelled from the spec: `RouteParameter` (from `ninja_extra.schemas`, not
in this slice) is the immutable record whose fields are read verbatim by the
registration machinery; it stores exactly what `Route.__init__` passes. -/
structure RouteParameter where
  path : String
  methods : List String
  auth : AuthArg
  response : StoredResp
  meta : RouteMeta
deriving DecidableEq

/-- The `Route` object resulting from a successful `Route.__init__`. -/
structure Route where
  route_params : RouteParameter
  is_async : Bool
  permissions : Option (List Atom)
  view_func : ViewFunc
deriving DecidableEq

/-- Lines 50–58 of `Route.__init__`: reject a non-list `methods`, upper-case
every entry, and reject the (deduplicated) set of entries falling outside
`ROUTE_METHODS` when it is non-empty; otherwise yield the upper-cased list. -/
def checkMethods : MethodsArg → Except RouteError (List String)
  | .nonList _ => .error .methodsNotList
  | .pylist ms =>
    let msUp := ms.map pyUpper
    let not_valid_methods := (msUp.filter (fun m => !ROUTE_METHODS.contains m)).dedup
    if not_valid_methods.isEmpty then .ok msUp
    else .error (.methodsNotAllowed not_valid_methods)

/-- One iteration of the `for item in response` loop (lines 68–77): a
typed-response contributes `{status_code: get_schema()}`, a dict is merged by
`dict.update`, a tuple contributes `{item[0]: item[1]}` (raising `IndexError`
when it has fewer than two components), and any other element is skipped. -/
def normStep (acc : List (Atom × Atom)) : RItem → Except RouteError (List (Atom × Atom))
  | .cr status schema => .ok (updateKV acc (.int status) schema)
  | .pydict d => .ok (updatePairs acc d)
  | .tup (k :: v :: _) => .ok (updateKV acc k v)
  | .tup _ => .error .indexError
  | .other _ => .ok acc

/-- The whole `for` loop accumulating `_response_computed`; an exception in
one iteration propagates out. -/
def normList : List RItem → List (Atom × Atom) → Except RouteError (List (Atom × Atom))
  | [], acc => .ok acc
  | item :: rest, acc =>
    Except.bind (normStep acc item) (fun updated => normList rest updated)

/-- Lines 60–82 of `Route.__init__`: normalize the `response` argument.
A typed-response becomes a one-entry mapping; a list is folded element-wise
and rejected when the result is empty; everything else (the sentinel, a dict,
any other value) passes through unchanged. -/
def normalizeResponse : RArg → Except RouteError StoredResp
  | .cr status schema => .ok (.mapping (updateKV [] (.int status) schema))
  | .pylist items =>
    match normList items [] with
    | .error e => .error e
    | .ok d =>
      if d.isEmpty then .error (.invalidResponseConfig items)
      else .ok (.mapping d)
  | .notSet => .ok .notSet
  | .pydict d => .ok (.mapping (pyDictOf d))
  | .other v => .ok (.passthrough v)

/-- `Route.__init__` (lines 28–104): validate `methods`, normalize `response`,
build the route-parameter record, and record the handler's execution mode. -/
def routeInit (view_func : ViewFunc) (path : String) (methods : MethodsArg)
    (auth : AuthArg) (response : RArg) (meta : RouteMeta)
    (permissions : Option (List Atom)) : Except RouteError Route :=
  Except.bind (checkMethods methods) (fun ms =>
    Except.bind (normalizeResponse response) (fun stored =>
      .ok { route_params := { path := path, methods := ms, auth := auth,
                              response := stored, meta := meta },
            is_async := view_func.is_async,
            permissions := permissions,
            view_func := view_func }))

/-- Modelled from the spec: `RouteFunction` / `AsyncRouteFunction` (from
`.route_functions`, not in this slice) are the two route-function variants,
each wrapping the constructed route descriptor. -/
inductive RouteFunctionV where
  | routeFunction (route : Route)
  | asyncRouteFunction (route : Route)
deriving DecidableEq

/-- The route descriptor wrapped by either variant. -/
def RouteFunctionV.routeOf : RouteFunctionV → Route
  | .routeFunction r => r
  | .asyncRouteFunction r => r

/-- Whether the asynchronous variant was produced. -/
def RouteFunctionV.isAsyncVariant : RouteFunctionV → Bool
  | .routeFunction _ => false
  | .asyncRouteFunction _ => true

/-- Lines 128–129 of `Route._create_route_function`: when `response` is the
`NOT_SET` sentinel, replace it by the handler's return annotation when one is
present (`get_type_hints(view_func).get("return") or NOT_SET`). -/
def resolveResponse (view_func : ViewFunc) : RArg → RArg
  | .notSet =>
    match view_func.returnAnnotation with
    | some t => RArg.other t
    | Option.none => RArg.notSet
  | r => r

/-- `Route._create_route_function` (lines 106–153): default an unset
`response` from the handler's return annotation, run `Route.__init__`, and
wrap the result in the variant selected by `route_obj.is_async`. -/
def createRouteFunction (view_func : ViewFunc) (path : String)
    (methods : MethodsArg) (auth : AuthArg) (response : RArg) (meta : RouteMeta)
    (permissions : Option (List Atom)) : Except RouteError RouteFunctionV :=
  Except.bind
    (routeInit view_func path methods auth (resolveResponse view_func response)
      meta permissions)
    (fun route_obj =>
      .ok (if route_obj.is_async then .asyncRouteFunction route_obj
           else .routeFunction route_obj))

/-- `Route.get`: the GET decorator factory applied to a handler. -/
def Route.get (path : String) (auth : AuthArg) (response : RArg)
    (meta : RouteMeta) (permissions : Option (List Atom)) (view_func : ViewFunc) :
    Except RouteError RouteFunctionV :=
  createRouteFunction view_func path (.pylist [GET]) auth response meta permissions

/-- `Route.post`: the POST decorator factory applied to a handler. -/
def Route.post (path : String) (auth : AuthArg) (response : RArg)
    (meta : RouteMeta) (permissions : Option (List Atom)) (view_func : ViewFunc) :
    Except RouteError RouteFunctionV :=
  createRouteFunction view_func path (.pylist [POST]) auth response meta permissions

/-- `Route.put`: the PUT decorator factory applied to a handler. -/
def Route.put (path : String) (auth : AuthArg) (response : RArg)
    (meta : RouteMeta) (permissions : Option (List Atom)) (view_func : ViewFunc) :
    Except RouteError RouteFunctionV :=
  createRouteFunction view_func path (.pylist [PUT]) auth response meta permissions

/-- `Route.patch`: the PATCH decorator factory applied to a handler. -/
def Route.patch (path : String) (auth : AuthArg) (response : RArg)
    (meta : RouteMeta) (permissions : Option (List Atom)) (view_func : ViewFunc) :
    Except RouteError RouteFunctionV :=
  createRouteFunction view_func path (.pylist [PATCH]) auth response meta permissions

/-- `Route.delete`: the DELETE decorator factory applied to a handler. -/
def Route.delete (path : String) (auth : AuthArg) (response : RArg)
    (meta : RouteMeta) (permissions : Option (List Atom)) (view_func : ViewFunc) :
    Except RouteError RouteFunctionV :=
  createRouteFunction view_func path (.pylist [DELETE]) auth response meta permissions

/-- `Route.generic`: the multi-verb decorator factory applied to a handler. -/
def Route.generic (path : String) (methods : MethodsArg) (auth : AuthArg)
    (response : RArg) (meta : RouteMeta) (permissions : Option (List Atom))
    (view_func : ViewFunc) : Except RouteError RouteFunctionV :=
  createRouteFunction view_func path methods auth response meta permissions

/-- Whether construction raised a `RouteInvalidParameterException`. -/
def raisedInvalidParameter : Except RouteError Route → Bool
  | .error e => e.isInvalidParameter
  | .ok _ => false

/-- Element predicate: a tuple with fewer than two components, on which the
indexing `item[0]` / `item[1]` raises. -/
def RItem.isShortTuple : RItem → Bool
  | .tup xs => decide (xs.length < 2)
  | _ => false

/-- Spec-side view of one element's normalization (from the spec's words, for
the refinement theorem): a typed-response yields its status/schema pair, a
mapping yields its entries, a tuple yields its first two components, and any
other element yields nothing. -/
def specItemPairs : RItem → List (Atom × Atom)
  | .cr status schema => [((Atom.int status), schema)]
  | .pydict d => d
  | .tup (k :: v :: _) => [(k, v)]
  | _ => []

/-- All contributions of a response sequence, in element order. -/
def specContribs : List RItem → List (Atom × Atom)
  | [] => []
  | x :: xs => specItemPairs x ++ specContribs xs

/-- Option alternative: the first operand when present, otherwise the second. -/
def oalt (a b : Option Atom) : Option Atom :=
  match a with
  | some v => some v
  | Option.none => b

/-- Spec-side last-write-wins merge (from the spec's words): the value at a
status code is the one contributed by the latest pair bearing that code. -/
def specLastWins : List (Atom × Atom) → Atom → Option Atom
  | [], _ => Option.none
  | p :: ps, k => oalt (specLastWins ps k) (if p.1 = k then some p.2 else Option.none)

/-- The keys of an association-list dict, in order. -/
def dkeys (d : List (Atom × Atom)) : List Atom :=
  d.map Prod.fst

/-- The model of `list(set(methods) - set(ROUTE_METHODS))`: the deduplicated
upper-cased entries falling outside the allow-list (Python's set iteration
order is unspecified, so any fixed order is a faithful rendering). -/
def disallowedOf (ms : List String) : List String :=
  ((ms.map pyUpper).filter (fun m => !ROUTE_METHODS.contains m)).dedup

theorem oalt_none (a : Option Atom) : oalt a Option.none = a := by
  cases a <;> rfl

theorem oalt_assoc (a b c : Option Atom) : oalt (oalt a b) c = oalt a (oalt b c) := by
  cases a <;> rfl

theorem alookup_updateKV (d : List (Atom × Atom)) (k v k' : Atom) :
    alookup (updateKV d k v) k' = if k' = k then some v else alookup d k' := by
  induction d with
  | nil =>
    simp only [updateKV, alookup]
    by_cases h : k' = k
    · subst h; simp
    · have h2 : ¬k = k' := fun hh => h hh.symm
      simp [h, h2]
  | cons p d ih =>
    simp only [updateKV]
    by_cases hpk : p.1 = k
    · rw [if_pos hpk]
      by_cases h : k' = k
      · subst h; simp [alookup]
      · have h2 : ¬k = k' := fun hh => h hh.symm
        have h3 : ¬p.1 = k' := by rw [hpk]; exact h2
        simp [alookup, h, h2, h3]
    · rw [if_neg hpk]
      simp only [alookup, ih]
      by_cases h : p.1 = k'
      · have h2 : ¬k' = k := fun hh => hpk (by rw [h, hh])
        simp [h, h2]
      · simp [h]

theorem alookup_updatePairs (ps : List (Atom × Atom)) (d : List (Atom × Atom)) (k : Atom) :
    alookup (updatePairs d ps) k = oalt (specLastWins ps k) (alookup d k) := by
  induction ps generalizing d with
  | nil => rfl
  | cons p ps ih =>
    simp only [updatePairs, List.foldl_cons, specLastWins]
    have hstep := ih (updateKV d p.1 p.2)
    simp only [updatePairs] at hstep
    rw [hstep, alookup_updateKV]
    cases hsl : specLastWins ps k with
    | none =>
      by_cases h : p.1 = k
      · rw [if_pos h.symm, if_pos h]; rfl
      · have h2 : ¬k = p.1 := fun hh => h hh.symm
        rw [if_neg h2, if_neg h]; rfl
    | some v => rfl

theorem specLastWins_append (xs ys : List (Atom × Atom)) (k : Atom) :
    specLastWins (xs ++ ys) k = oalt (specLastWins ys k) (specLastWins xs k) := by
  induction xs with
  | nil =>
    simp only [List.nil_append, specLastWins, oalt_none]
  | cons p xs ih =>
    have hc : (p :: xs) ++ ys = p :: (xs ++ ys) := rfl
    rw [hc]
    simp only [specLastWins]
    rw [ih, oalt_assoc]

theorem updatePairs_append (d ps qs : List (Atom × Atom)) :
    updatePairs d (ps ++ qs) = updatePairs (updatePairs d ps) qs := by
  simp [updatePairs, List.foldl_append]

theorem normStep_ok_of_not_short (acc : List (Atom × Atom)) :
    ∀ x : RItem, x.isShortTuple = false →
      normStep acc x = .ok (updatePairs acc (specItemPairs x))
  | .cr _ _, _ => rfl
  | .pydict _, _ => rfl
  | .tup [], h => by simp [RItem.isShortTuple] at h
  | .tup [_], h => by simp [RItem.isShortTuple] at h
  | .tup (_ :: _ :: _), _ => rfl
  | .other _, _ => rfl

theorem normList_ok_of_no_short (items : List RItem) :
    ∀ acc : List (Atom × Atom), (∀ x ∈ items, x.isShortTuple = false) →
      normList items acc = .ok (updatePairs acc (specContribs items)) := by
  induction items with
  | nil => intro acc _; rfl
  | cons x items ih =>
    intro acc h
    have hx : x.isShortTuple = false := h x (List.mem_cons_self x items)
    have hrest : ∀ y ∈ items, y.isShortTuple = false :=
      fun y hy => h y (List.mem_cons_of_mem x hy)
    simp only [normList, normStep_ok_of_not_short acc x hx, Except.bind]
    rw [ih (updatePairs acc (specItemPairs x)) hrest, ← updatePairs_append]
    rfl

theorem normStep_error_eq (acc : List (Atom × Atom)) (e : RouteError) :
    ∀ x : RItem, normStep acc x = .error e →
      e = .indexError ∧ x.isShortTuple = true
  | .cr _ _, h => by simp [normStep] at h
  | .pydict _, h => by simp [normStep] at h
  | .tup [], h => by
    simp only [normStep, Except.error.injEq] at h
    exact ⟨h.symm, rfl⟩
  | .tup [_], h => by
    simp only [normStep, Except.error.injEq] at h
    exact ⟨h.symm, rfl⟩
  | .tup (_ :: _ :: _), h => by simp [normStep] at h
  | .other _, h => by simp [normStep] at h

theorem normList_error_eq (items : List RItem) :
    ∀ acc e, normList items acc = .error e → e = .indexError := by
  induction items with
  | nil => intro acc e h; simp [normList] at h
  | cons x items ih =>
    intro acc e h
    simp only [normList] at h
    cases hs : normStep acc x with
    | ok u =>
      rw [hs] at h
      simp only [Except.bind] at h
      exact ih u e h
    | error e2 =>
      rw [hs] at h
      simp only [Except.bind, Except.error.injEq] at h
      rw [← h]
      exact (normStep_error_eq acc e2 x hs).1

theorem normList_error_of_short (items : List RItem) :
    ∀ acc, (∃ x ∈ items, x.isShortTuple = true) →
      normList items acc = .error .indexError := by
  induction items with
  | nil => intro acc h; obtain ⟨x, hx, _⟩ := h; cases hx
  | cons y items ih =>
    intro acc h
    obtain ⟨x, hx, hshort⟩ := h
    by_cases hy : y.isShortTuple = true
    · cases y with
      | tup xs =>
        simp only [normList]
        cases xs with
        | nil => rfl
        | cons a t =>
          cases t with
          | nil => rfl
          | cons b t =>
            simp [RItem.isShortTuple] at hy
            omega
      | cr st sch => simp [RItem.isShortTuple] at hy
      | pydict d => simp [RItem.isShortTuple] at hy
      | other v => simp [RItem.isShortTuple] at hy
    · have hy2 : y.isShortTuple = false := by
        cases hb : y.isShortTuple with
        | false => rfl
        | true => exact absurd hb hy
      have hxin : x ∈ items := by
        rcases List.mem_cons.mp hx with h1 | h2
        · exact absurd (h1 ▸ hshort) hy
        · exact h2
      simp only [normList, normStep_ok_of_not_short acc y hy2, Except.bind]
      exact ih _ ⟨x, hxin, hshort⟩

theorem mem_dkeys_updateKV (d : List (Atom × Atom)) (k v a : Atom) :
    a ∈ dkeys (updateKV d k v) ↔ a ∈ dkeys d ∨ a = k := by
  induction d with
  | nil => simp [updateKV, dkeys]
  | cons p d ih =>
    simp only [updateKV]
    by_cases h : p.1 = k
    · rw [if_pos h]
      simp only [dkeys, List.map_cons, List.mem_cons]
      rw [h]
      tauto
    · rw [if_neg h]
      simp only [dkeys, List.map_cons, List.mem_cons]
      simp only [dkeys] at ih
      rw [ih]
      tauto

theorem nodup_dkeys_updateKV (d : List (Atom × Atom)) (k v : Atom)
    (h : (dkeys d).Nodup) : (dkeys (updateKV d k v)).Nodup := by
  induction d with
  | nil => simp [updateKV, dkeys]
  | cons p d ih =>
    simp only [dkeys, List.map_cons, List.nodup_cons] at h
    obtain ⟨hp, hd⟩ := h
    simp only [updateKV]
    by_cases hk : p.1 = k
    · rw [if_pos hk]
      simp only [dkeys, List.map_cons, List.nodup_cons]
      constructor
      · rw [← hk]
        exact hp
      · exact hd
    · rw [if_neg hk]
      simp only [dkeys, List.map_cons, List.nodup_cons]
      constructor
      · intro hmem
        rcases (mem_dkeys_updateKV d k v p.1).mp hmem with h1 | h2
        · exact hp h1
        · exact hk h2
      · exact ih hd

theorem nodup_dkeys_updatePairs (ps : List (Atom × Atom)) :
    ∀ d, (dkeys d).Nodup → (dkeys (updatePairs d ps)).Nodup := by
  induction ps with
  | nil => intro d h; exact h
  | cons p ps ih =>
    intro d h
    exact ih _ (nodup_dkeys_updateKV d p.1 p.2 h)

theorem nodup_dkeys_pyDictOf (ps : List (Atom × Atom)) :
    (dkeys (pyDictOf ps)).Nodup :=
  nodup_dkeys_updatePairs ps [] (by simp [dkeys])

theorem normStep_ok_nodup (acc u : List (Atom × Atom)) :
    ∀ x : RItem, normStep acc x = .ok u →
      (dkeys acc).Nodup → (dkeys u).Nodup := by
  intro x hs hn
  cases x with
  | cr st sch =>
    simp only [normStep, Except.ok.injEq] at hs
    rw [← hs]
    exact nodup_dkeys_updateKV acc _ sch hn
  | pydict d0 =>
    simp only [normStep, Except.ok.injEq] at hs
    rw [← hs]
    exact nodup_dkeys_updatePairs d0 acc hn
  | tup xs =>
    cases xs with
    | nil => simp [normStep] at hs
    | cons a t =>
      cases t with
      | nil => simp [normStep] at hs
      | cons b t =>
        simp only [normStep, Except.ok.injEq] at hs
        rw [← hs]
        exact nodup_dkeys_updateKV acc a b hn
  | other v =>
    simp only [normStep, Except.ok.injEq] at hs
    rw [← hs]
    exact hn

theorem nodup_dkeys_normList (items : List RItem) :
    ∀ acc d, normList items acc = .ok d → (dkeys acc).Nodup → (dkeys d).Nodup := by
  induction items with
  | nil =>
    intro acc d h hn
    simp only [normList, Except.ok.injEq] at h
    rw [← h]
    exact hn
  | cons x items ih =>
    intro acc d h hn
    simp only [normList] at h
    cases hs : normStep acc x with
    | ok u =>
      rw [hs] at h
      simp only [Except.bind] at h
      exact ih u d h (normStep_ok_nodup acc u x hs hn)
    | error e =>
      rw [hs] at h
      simp [Except.bind] at h

theorem mem_disallowedOf (ms : List String) (t : String) :
    t ∈ disallowedOf ms ↔ t ∈ ms.map pyUpper ∧ t ∉ ROUTE_METHODS := by
  simp [disallowedOf, List.mem_dedup, List.mem_filter, List.contains]

theorem disallowedOf_eq_nil_iff (ms : List String) :
    disallowedOf ms = [] ↔ ∀ m ∈ ms, pyUpper m ∈ ROUTE_METHODS := by
  rw [disallowedOf, List.dedup_eq_nil, List.filter_eq_nil_iff]
  constructor
  · intro h m hm
    have := h (pyUpper m) (List.mem_map_of_mem _ hm)
    simpa [List.contains] using this
  · intro h a ha
    obtain ⟨m, hm, rfl⟩ := List.mem_map.mp ha
    simp [List.contains, h m hm]

theorem checkMethods_eq (ms : List String) :
    checkMethods (.pylist ms) =
      if disallowedOf ms = [] then .ok (ms.map pyUpper)
      else .error (.methodsNotAllowed (disallowedOf ms)) := by
  have hd : ((ms.map pyUpper).filter (fun m => !ROUTE_METHODS.contains m)).dedup
      = disallowedOf ms := rfl
  simp only [checkMethods, hd]
  by_cases h : disallowedOf ms = []
  · simp [h]
  · simp [h, List.isEmpty_iff]

theorem routeInit_ok_parts (f : ViewFunc) (path : String) (methods : MethodsArg)
    (auth : AuthArg) (response : RArg) (meta : RouteMeta)
    (perms : Option (List Atom)) (ms : List String) (stored : StoredResp)
    (hm : checkMethods methods = .ok ms)
    (hr : normalizeResponse response = .ok stored) :
    routeInit f path methods auth response meta perms =
      .ok { route_params := { path := path, methods := ms, auth := auth,
                              response := stored, meta := meta },
            is_async := f.is_async, permissions := perms, view_func := f } := by
  simp [routeInit, hm, hr, Except.bind]

theorem routeInit_error_methods (f : ViewFunc) (path : String)
    (methods : MethodsArg) (auth : AuthArg) (response : RArg) (meta : RouteMeta)
    (perms : Option (List Atom)) (e : RouteError)
    (hm : checkMethods methods = .error e) :
    routeInit f path methods auth response meta perms = .error e := by
  simp [routeInit, hm, Except.bind]

theorem routeInit_error_response (f : ViewFunc) (path : String)
    (methods : MethodsArg) (auth : AuthArg) (response : RArg) (meta : RouteMeta)
    (perms : Option (List Atom)) (ms : List String) (e : RouteError)
    (hm : checkMethods methods = .ok ms)
    (hr : normalizeResponse response = .error e) :
    routeInit f path methods auth response meta perms = .error e := by
  simp [routeInit, hm, hr, Except.bind]

theorem routeInit_ok_inv (f : ViewFunc) (path : String) (methods : MethodsArg)
    (auth : AuthArg) (response : RArg) (meta : RouteMeta)
    (perms : Option (List Atom)) (r : Route)
    (h : routeInit f path methods auth response meta perms = .ok r) :
    ∃ ms stored, checkMethods methods = .ok ms ∧
      normalizeResponse response = .ok stored ∧
      r.route_params.methods = ms ∧ r.route_params.response = stored ∧
      r.is_async = f.is_async := by
  cases hm : checkMethods methods with
  | error e =>
    rw [routeInit_error_methods f path methods auth response meta perms e hm] at h
    cases h
  | ok ms =>
    cases hr : normalizeResponse response with
    | error e =>
      rw [routeInit_error_response f path methods auth response meta perms ms e hm hr] at h
      cases h
    | ok stored =>
      rw [routeInit_ok_parts f path methods auth response meta perms ms stored hm hr] at h
      cases h
      exact ⟨ms, stored, rfl, rfl, rfl, rfl, rfl⟩

theorem specLastWins_ne_none_of_mem (ps : List (Atom × Atom)) (p : Atom × Atom) :
    p ∈ ps → specLastWins ps p.1 ≠ Option.none := by
  induction ps with
  | nil => intro h; cases h
  | cons q ps ih =>
    intro h
    simp only [specLastWins]
    cases hsl : specLastWins ps p.1 with
    | some v => intro hc; simp [oalt] at hc
    | none =>
      rcases List.mem_cons.mp h with h1 | h2
      · rw [h1, if_pos rfl]
        simp [oalt]
      · exact absurd hsl (ih h2)

/-- `C2` — amended: construction raises `RouteInvalidParameterException` if and
only if (a) `methods` is not a list, (b) `methods` contains an entry whose
upper-casing falls outside the fixed allow-list, or (c) the `response` is a
list whose element-wise normalization yields an empty mapping.  (The claim's
final sentence — that a `methods` list of allowed verbs alone rules the error
out — is refuted by `invalid_parameter_only_allowed_verbs_counterexample`:
condition (c) can still raise it.) -/
theorem invalid_parameter_iff_three_conditions
    (f : ViewFunc) (path : String) (methods : MethodsArg) (auth : AuthArg)
    (response : RArg) (meta : RouteMeta) (perms : Option (List Atom)) :
    raisedInvalidParameter (routeInit f path methods auth response meta perms) = true ↔
      ((∃ v, methods = .nonList v) ∨
       (∃ ms, methods = .pylist ms ∧ ∃ m ∈ ms, pyUpper m ∉ ROUTE_METHODS) ∨
       (∃ items, response = .pylist items ∧ normList items [] = .ok [])) := by
  cases methods with
  | nonList v =>
    have hstep : routeInit f path (.nonList v) auth response meta perms
        = .error .methodsNotList :=
      routeInit_error_methods f path _ auth response meta perms _ rfl
    rw [hstep]
    simp only [raisedInvalidParameter, RouteError.isInvalidParameter, true_iff]
    exact Or.inl ⟨v, rfl⟩
  | pylist ms =>
    by_cases hb : disallowedOf ms = []
    · have hck : checkMethods (.pylist ms) = .ok (ms.map pyUpper) := by
        rw [checkMethods_eq, if_pos hb]
      have hnob : ¬∃ m ∈ ms, pyUpper m ∉ ROUTE_METHODS := by
        rw [disallowedOf_eq_nil_iff] at hb
        rintro ⟨m, hm, hmu⟩
        exact hmu (hb m hm)
      cases response with
      | pylist items =>
        cases hn : normList items [] with
        | error e =>
          have he := normList_error_eq items [] e hn
          subst he
          have hnr : normalizeResponse (.pylist items) = .error .indexError := by
            simp [normalizeResponse, hn]
          rw [routeInit_error_response f path _ auth _ meta perms _ _ hck hnr]
          constructor
          · intro hx
            exact Bool.noConfusion hx
          · rintro (⟨v, hv⟩ | ⟨ms2, hms, hmm⟩ | ⟨items2, hit, hno⟩)
            · cases hv
            · injection hms with h
              subst h
              exact absurd hmm hnob
            · injection hit with h
              subst h
              rw [hn] at hno
              cases hno
        | ok d =>
          by_cases hd : d = []
          · subst hd
            have hnr : normalizeResponse (.pylist items)
                = .error (.invalidResponseConfig items) := by
              simp [normalizeResponse, hn]
            rw [routeInit_error_response f path _ auth _ meta perms _ _ hck hnr]
            constructor
            · intro _
              exact Or.inr (Or.inr ⟨items, rfl, hn⟩)
            · intro _
              rfl
          · have hdne : d.isEmpty = false := by
              cases d with
              | nil => exact absurd rfl hd
              | cons a t => rfl
            have hnr : normalizeResponse (.pylist items) = .ok (.mapping d) := by
              simp [normalizeResponse, hn, hdne]
            rw [routeInit_ok_parts f path _ auth _ meta perms _ _ hck hnr]
            constructor
            · intro hx
              exact Bool.noConfusion hx
            · rintro (⟨v, hv⟩ | ⟨ms2, hms, hmm⟩ | ⟨items2, hit, hno⟩)
              · cases hv
              · injection hms with h
                subst h
                exact absurd hmm hnob
              · injection hit with h
                subst h
                rw [hn] at hno
                injection hno with h2
                exact absurd h2 hd
      | notSet =>
        have hnr : normalizeResponse RArg.notSet = .ok .notSet := rfl
        rw [routeInit_ok_parts f path _ auth _ meta perms _ _ hck hnr]
        constructor
        · intro hx
          exact Bool.noConfusion hx
        · rintro (⟨v, hv⟩ | ⟨ms2, hms, hmm⟩ | ⟨items2, hit, hno⟩)
          · cases hv
          · injection hms with h
            subst h
            exact absurd hmm hnob
          · cases hit
      | cr st sch =>
        have hnr : normalizeResponse (RArg.cr st sch)
            = .ok (.mapping (updateKV [] (.int st) sch)) := rfl
        rw [routeInit_ok_parts f path _ auth _ meta perms _ _ hck hnr]
        constructor
        · intro hx
          exact Bool.noConfusion hx
        · rintro (⟨v, hv⟩ | ⟨ms2, hms, hmm⟩ | ⟨items2, hit, hno⟩)
          · cases hv
          · injection hms with h
            subst h
            exact absurd hmm hnob
          · cases hit
      | pydict d =>
        have hnr : normalizeResponse (RArg.pydict d) = .ok (.mapping (pyDictOf d)) := rfl
        rw [routeInit_ok_parts f path _ auth _ meta perms _ _ hck hnr]
        constructor
        · intro hx
          exact Bool.noConfusion hx
        · rintro (⟨v, hv⟩ | ⟨ms2, hms, hmm⟩ | ⟨items2, hit, hno⟩)
          · cases hv
          · injection hms with h
            subst h
            exact absurd hmm hnob
          · cases hit
      | other v0 =>
        have hnr : normalizeResponse (RArg.other v0) = .ok (.passthrough v0) := rfl
        rw [routeInit_ok_parts f path _ auth _ meta perms _ _ hck hnr]
        constructor
        · intro hx
          exact Bool.noConfusion hx
        · rintro (⟨v, hv⟩ | ⟨ms2, hms, hmm⟩ | ⟨items2, hit, hno⟩)
          · cases hv
          · injection hms with h
            subst h
            exact absurd hmm hnob
          · cases hit
    · have hck : checkMethods (.pylist ms)
          = .error (.methodsNotAllowed (disallowedOf ms)) := by
        rw [checkMethods_eq, if_neg hb]
      rw [routeInit_error_methods f path _ auth response meta perms _ hck]
      simp only [raisedInvalidParameter, RouteError.isInvalidParameter, true_iff]
      refine Or.inr (Or.inl ⟨ms, rfl, ?_⟩)
      by_contra hno
      push_neg at hno
      exact hb ((disallowedOf_eq_nil_iff ms).mpr hno)

/-- `C2` — counterexample to the claim's final sentence: with
`methods = ["GET"]` (only allowed verbs) and `response = []`, construction
still raises the invalid-parameter error, via condition (c). -/
theorem invalid_parameter_only_allowed_verbs_counterexample :
    raisedInvalidParameter
      (routeInit ⟨false, Option.none⟩ "" (.pylist ["GET"]) .notSet
        (.pylist []) defaultRouteMeta Option.none) = true := by decide

theorem routeOf_ite (c : Bool) (r : Route) :
    (if c then RouteFunctionV.asyncRouteFunction r
     else RouteFunctionV.routeFunction r).routeOf = r := by
  cases c <;> rfl

theorem isAsyncVariant_ite (c : Bool) (r : Route) :
    (if c then RouteFunctionV.asyncRouteFunction r
     else RouteFunctionV.routeFunction r).isAsyncVariant = c := by
  cases c <;> rfl

theorem createRouteFunction_ok_route (f : ViewFunc) (path : String)
    (methods : MethodsArg) (auth : AuthArg) (response : RArg) (meta : RouteMeta)
    (perms : Option (List Atom)) (r : Route)
    (h : routeInit f path methods auth (resolveResponse f response) meta perms
      = .ok r) :
    createRouteFunction f path methods auth response meta perms =
      .ok (if r.is_async then .asyncRouteFunction r else .routeFunction r) := by
  simp [createRouteFunction, h, Except.bind]

theorem createRouteFunction_ok_inv (f : ViewFunc) (path : String)
    (methods : MethodsArg) (auth : AuthArg) (response : RArg) (meta : RouteMeta)
    (perms : Option (List Atom)) (rf : RouteFunctionV)
    (h : createRouteFunction f path methods auth response meta perms = .ok rf) :
    ∃ r, routeInit f path methods auth (resolveResponse f response) meta perms
        = .ok r ∧
      rf = (if r.is_async then .asyncRouteFunction r else .routeFunction r) := by
  unfold createRouteFunction at h
  cases hro : routeInit f path methods auth (resolveResponse f response) meta perms with
  | error e =>
    rw [hro] at h
    simp [Except.bind] at h
  | ok r =>
    rw [hro] at h
    simp only [Except.bind] at h
    refine ⟨r, rfl, ?_⟩
    injection h with h2
    exact h2.symm

theorem createRouteFunction_methods (f : ViewFunc) (path : String)
    (ms : List String) (auth : AuthArg) (meta : RouteMeta)
    (perms : Option (List Atom)) (h : ∀ m ∈ ms, pyUpper m ∈ ROUTE_METHODS) :
    ∃ rf, createRouteFunction f path (.pylist ms) auth .notSet meta perms
        = .ok rf ∧
      rf.routeOf.route_params.methods = ms.map pyUpper := by
  have hck : checkMethods (.pylist ms) = .ok (ms.map pyUpper) := by
    rw [checkMethods_eq, if_pos ((disallowedOf_eq_nil_iff ms).mpr h)]
  cases hra : f.returnAnnotation with
  | none =>
    have hres : resolveResponse f .notSet = .notSet := by
      simp [resolveResponse, hra]
    have hro := routeInit_ok_parts f path (.pylist ms) auth RArg.notSet meta perms
      (ms.map pyUpper) .notSet hck rfl
    refine ⟨_, createRouteFunction_ok_route f path _ auth _ meta perms _
      (by rw [hres]; exact hro), ?_⟩
    rw [routeOf_ite]
  | some t =>
    have hres : resolveResponse f .notSet = .other t := by
      simp [resolveResponse, hra]
    have hro := routeInit_ok_parts f path (.pylist ms) auth (RArg.other t) meta perms
      (ms.map pyUpper) (.passthrough t) hck rfl
    refine ⟨_, createRouteFunction_ok_route f path _ auth _ meta perms _
      (by rw [hres]; exact hro), ?_⟩
    rw [routeOf_ite]

/-- `C3` — amended: every stored `methods` entry is drawn from the fixed
allowed-verb set, but the collection need not be non-empty:
`methods=[]` makes the set-difference check vacuous, so construction succeeds
with an empty stored verb collection
(see `methods_empty_list_succeeds_counterexample`). -/
theorem stored_methods_subset_allowed
    (f : ViewFunc) (path : String) (methods : MethodsArg) (auth : AuthArg)
    (response : RArg) (meta : RouteMeta) (perms : Option (List Atom)) (r : Route)
    (h : routeInit f path methods auth response meta perms = .ok r) :
    ∀ v ∈ r.route_params.methods, v ∈ ROUTE_METHODS := by
  obtain ⟨ms, stored, hm, hr, hms, _, _⟩ :=
    routeInit_ok_inv f path methods auth response meta perms r h
  rw [hms]
  cases methods with
  | nonList v =>
    rw [show checkMethods (MethodsArg.nonList v) = .error .methodsNotList from rfl] at hm
    cases hm
  | pylist ms0 =>
    rw [checkMethods_eq] at hm
    by_cases hb : disallowedOf ms0 = []
    · rw [if_pos hb] at hm
      injection hm with h2
      subst h2
      rw [disallowedOf_eq_nil_iff] at hb
      intro v hv
      obtain ⟨m, hm0, rfl⟩ := List.mem_map.mp hv
      exact hb m hm0
    · rw [if_neg hb] at hm
      cases hm

/-- `C3` — counterexample to the non-emptiness half of the claim:
`methods = []` passes the set-difference validation (the difference of the
empty set is empty), so construction succeeds and stores an empty verb
collection instead of failing. -/
theorem methods_empty_list_succeeds_counterexample :
    ∃ r, routeInit ⟨false, Option.none⟩ "" (.pylist []) .notSet .notSet
        defaultRouteMeta Option.none = .ok r ∧ r.route_params.methods = [] :=
  ⟨_, rfl, rfl⟩

/-- Witness for `stored_methods_subset_allowed` at a concrete construction. -/
theorem stored_methods_subset_allowed_witness :
    (∃ r, routeInit ⟨false, Option.none⟩ "" (.pylist ["get", "POST"]) .notSet .notSet
        defaultRouteMeta Option.none = .ok r ∧ "GET" ∈ r.route_params.methods) ∧
    "GET" ∈ ROUTE_METHODS := by
  refine ⟨⟨_, rfl, by decide⟩, ?_⟩
  exact stored_methods_subset_allowed ⟨false, Option.none⟩ "" (.pylist ["get", "POST"])
    .notSet .notSet defaultRouteMeta Option.none _ rfl "GET" (by decide)

/-- `C4`: for every verb list whose entries upper-case into the allow-list,
construction succeeds and stores the upper-cased input (hence, as a set, the
upper-cased input set, order-independent); each per-verb factory fixes
exactly its one verb, and the generic factory stores the caller-supplied
list after upper-casing, equal as a set to the upper-cased input. -/
theorem methods_allowed_upper_set_stored :
    (∀ (f : ViewFunc) (path : String) (ms : List String) (auth : AuthArg)
        (meta : RouteMeta) (perms : Option (List Atom)),
      (∀ m ∈ ms, pyUpper m ∈ ROUTE_METHODS) →
      ∃ r, routeInit f path (.pylist ms) auth .notSet meta perms = .ok r ∧
        r.route_params.methods = ms.map pyUpper ∧
        r.route_params.methods.toFinset = (ms.map pyUpper).toFinset) ∧
    (∀ (f : ViewFunc) (path : String) (auth : AuthArg) (meta : RouteMeta)
        (perms : Option (List Atom)),
      (∃ rf, Route.get path auth .notSet meta perms f = .ok rf ∧
        rf.routeOf.route_params.methods = [GET]) ∧
      (∃ rf, Route.post path auth .notSet meta perms f = .ok rf ∧
        rf.routeOf.route_params.methods = [POST]) ∧
      (∃ rf, Route.put path auth .notSet meta perms f = .ok rf ∧
        rf.routeOf.route_params.methods = [PUT]) ∧
      (∃ rf, Route.patch path auth .notSet meta perms f = .ok rf ∧
        rf.routeOf.route_params.methods = [PATCH]) ∧
      (∃ rf, Route.delete path auth .notSet meta perms f = .ok rf ∧
        rf.routeOf.route_params.methods = [DELETE])) ∧
    (∀ (f : ViewFunc) (path : String) (ms : List String) (auth : AuthArg)
        (meta : RouteMeta) (perms : Option (List Atom)),
      (∀ m ∈ ms, pyUpper m ∈ ROUTE_METHODS) →
      ∃ rf, Route.generic path (.pylist ms) auth .notSet meta perms f = .ok rf ∧
        rf.routeOf.route_params.methods = ms.map pyUpper ∧
        rf.routeOf.route_params.methods.toFinset = (ms.map pyUpper).toFinset) := by
  refine ⟨?_, ?_, ?_⟩
  · intro f path ms auth meta perms h
    have hck : checkMethods (.pylist ms) = .ok (ms.map pyUpper) := by
      rw [checkMethods_eq, if_pos ((disallowedOf_eq_nil_iff ms).mpr h)]
    exact ⟨_, routeInit_ok_parts f path (.pylist ms) auth RArg.notSet meta perms
      (ms.map pyUpper) .notSet hck rfl, rfl, rfl⟩
  · intro f path auth meta perms
    refine ⟨?_, ?_, ?_, ?_, ?_⟩
    · obtain ⟨rf, h1, h2⟩ := createRouteFunction_methods f path [GET] auth meta perms
        (by decide)
      exact ⟨rf, h1, by rw [h2]; decide⟩
    · obtain ⟨rf, h1, h2⟩ := createRouteFunction_methods f path [POST] auth meta perms
        (by decide)
      exact ⟨rf, h1, by rw [h2]; decide⟩
    · obtain ⟨rf, h1, h2⟩ := createRouteFunction_methods f path [PUT] auth meta perms
        (by decide)
      exact ⟨rf, h1, by rw [h2]; decide⟩
    · obtain ⟨rf, h1, h2⟩ := createRouteFunction_methods f path [PATCH] auth meta perms
        (by decide)
      exact ⟨rf, h1, by rw [h2]; decide⟩
    · obtain ⟨rf, h1, h2⟩ := createRouteFunction_methods f path [DELETE] auth meta perms
        (by decide)
      exact ⟨rf, h1, by rw [h2]; decide⟩
  · intro f path ms auth meta perms h
    obtain ⟨rf, h1, h2⟩ := createRouteFunction_methods f path ms auth meta perms h
    exact ⟨rf, h1, h2, by rw [h2]⟩

/-- Witness for `methods_allowed_upper_set_stored` at concrete inputs:
a mixed-case list through `Route.__init__` and the GET factory. -/
theorem methods_allowed_upper_set_stored_witness :
    (∃ r, routeInit ⟨false, Option.none⟩ "" (.pylist ["get", "Get", "post"]) .notSet
        .notSet defaultRouteMeta Option.none = .ok r ∧
      r.route_params.methods = ["GET", "GET", "POST"]) ∧
    (∃ rf, Route.get "" .notSet .notSet defaultRouteMeta Option.none
        ⟨false, Option.none⟩ = .ok rf ∧
      rf.routeOf.route_params.methods = [GET]) := by
  constructor
  · obtain ⟨r, h1, h2, _⟩ := methods_allowed_upper_set_stored.1 ⟨false, Option.none⟩
      "" ["get", "Get", "post"] .notSet defaultRouteMeta Option.none (by decide)
    exact ⟨r, h1, by rw [h2]; decide⟩
  · exact (methods_allowed_upper_set_stored.2.1 ⟨false, Option.none⟩ ""
      .notSet defaultRouteMeta Option.none).1

/-- `C5`: when some entry of the verb list upper-cases outside the allow-list,
construction fails with the invalid-parameter error carrying exactly the
(upper-cased) disallowed tokens, and its message comma-joins them. -/
theorem disallowed_methods_error_lists_tokens
    (f : ViewFunc) (path : String) (ms : List String) (auth : AuthArg)
    (response : RArg) (meta : RouteMeta) (perms : Option (List Atom))
    (h : ∃ m ∈ ms, pyUpper m ∉ ROUTE_METHODS) :
    ∃ bad, routeInit f path (.pylist ms) auth response meta perms
        = .error (.methodsNotAllowed bad) ∧
      (∀ t, t ∈ bad ↔ t ∈ ms.map pyUpper ∧ t ∉ ROUTE_METHODS) ∧
      renderError (.methodsNotAllowed bad)
        = "Method " ++ String.intercalate "," bad ++ " not allowed" := by
  have hb : disallowedOf ms ≠ [] := by
    intro hb
    rw [disallowedOf_eq_nil_iff] at hb
    obtain ⟨m, hm, hmu⟩ := h
    exact hmu (hb m hm)
  have hck : checkMethods (.pylist ms)
      = .error (.methodsNotAllowed (disallowedOf ms)) := by
    rw [checkMethods_eq, if_neg hb]
  exact ⟨disallowedOf ms,
    routeInit_error_methods f path _ auth response meta perms _ hck,
    fun t => mem_disallowedOf ms t, rfl⟩

/-- Witness for `disallowed_methods_error_lists_tokens` at a concrete verb
list with two disallowed tokens. -/
theorem disallowed_methods_error_lists_tokens_witness :
    ∃ bad, routeInit ⟨false, Option.none⟩ "" (.pylist ["get", "frobnicate", "SPAM"])
        .notSet .notSet defaultRouteMeta Option.none
        = .error (.methodsNotAllowed bad) ∧
      (∀ t, t ∈ bad ↔
        t ∈ ["get", "frobnicate", "SPAM"].map pyUpper ∧ t ∉ ROUTE_METHODS) ∧
      renderError (.methodsNotAllowed bad)
        = "Method " ++ String.intercalate "," bad ++ " not allowed" :=
  disallowed_methods_error_lists_tokens ⟨false, Option.none⟩ ""
    ["get", "frobnicate", "SPAM"] .notSet .notSet defaultRouteMeta Option.none
    ⟨"frobnicate", by decide, by decide⟩

/-- `C6`: a list-shaped `response` whose element-wise normalization yields no
entries fails with the invalid-parameter error that carries the original
list, and the error message echoes that original value. -/
theorem empty_normalized_response_error_echoes_input
    (f : ViewFunc) (path : String) (ms : List String) (auth : AuthArg)
    (meta : RouteMeta) (perms : Option (List Atom)) (items : List RItem)
    (hm : ∀ m ∈ ms, pyUpper m ∈ ROUTE_METHODS)
    (hr : normList items [] = .ok []) :
    routeInit f path (.pylist ms) auth (.pylist items) meta perms
        = .error (.invalidResponseConfig items) ∧
      renderError (.invalidResponseConfig items)
        = "Invalid response configuration: " ++ renderItems items := by
  have hck : checkMethods (.pylist ms) = .ok (ms.map pyUpper) := by
    rw [checkMethods_eq, if_pos ((disallowedOf_eq_nil_iff ms).mpr hm)]
  have hnr : normalizeResponse (.pylist items)
      = .error (.invalidResponseConfig items) := by
    simp [normalizeResponse, hr]
  exact ⟨routeInit_error_response f path _ auth _ meta perms _ _ hck hnr, rfl⟩

/-- Witness for `empty_normalized_response_error_echoes_input` at the spec's
`[None]` example. -/
theorem empty_normalized_response_error_echoes_input_witness :
    routeInit ⟨false, Option.none⟩ "" (.pylist ["GET"]) .notSet
        (.pylist [.other .none]) defaultRouteMeta Option.none
        = .error (.invalidResponseConfig [.other .none]) ∧
      renderError (.invalidResponseConfig [.other .none])
        = "Invalid response configuration: " ++ renderItems [.other .none] :=
  empty_normalized_response_error_echoes_input ⟨false, Option.none⟩ "" ["GET"]
    .notSet defaultRouteMeta Option.none [.other .none] (by decide) rfl

/-- `C7`: when `response` is the unset sentinel at build time, the built
descriptor's response is derived from the handler's declared return
annotation `T` when one exists (it is stored as the pass-through of the
opaque type object `T`), and remains the unset sentinel when none exists. -/
theorem unset_response_from_return_hint
    (f : ViewFunc) (path : String) (ms : List String) (auth : AuthArg)
    (meta : RouteMeta) (perms : Option (List Atom))
    (hm : ∀ m ∈ ms, pyUpper m ∈ ROUTE_METHODS) :
    (∀ t, f.returnAnnotation = some t →
      ∃ rf, createRouteFunction f path (.pylist ms) auth .notSet meta perms
          = .ok rf ∧
        rf.routeOf.route_params.response = .passthrough t) ∧
    (f.returnAnnotation = Option.none →
      ∃ rf, createRouteFunction f path (.pylist ms) auth .notSet meta perms
          = .ok rf ∧
        rf.routeOf.route_params.response = .notSet) := by
  have hck : checkMethods (.pylist ms) = .ok (ms.map pyUpper) := by
    rw [checkMethods_eq, if_pos ((disallowedOf_eq_nil_iff ms).mpr hm)]
  constructor
  · intro t hra
    have hres : resolveResponse f .notSet = .other t := by
      simp [resolveResponse, hra]
    have hro := routeInit_ok_parts f path (.pylist ms) auth (RArg.other t) meta
      perms (ms.map pyUpper) (.passthrough t) hck rfl
    refine ⟨_, createRouteFunction_ok_route f path _ auth _ meta perms _
      (by rw [hres]; exact hro), ?_⟩
    rw [routeOf_ite]
  · intro hra
    have hres : resolveResponse f .notSet = .notSet := by
      simp [resolveResponse, hra]
    have hro := routeInit_ok_parts f path (.pylist ms) auth RArg.notSet meta
      perms (ms.map pyUpper) .notSet hck rfl
    refine ⟨_, createRouteFunction_ok_route f path _ auth _ meta perms _
      (by rw [hres]; exact hro), ?_⟩
    rw [routeOf_ite]

/-- Witness for `unset_response_from_return_hint`: one handler with a
return annotation, one without. -/
theorem unset_response_from_return_hint_witness :
    (∃ rf, createRouteFunction ⟨false, some (.str "T")⟩ "" (.pylist ["GET"])
        .notSet .notSet defaultRouteMeta Option.none = .ok rf ∧
      rf.routeOf.route_params.response = .passthrough (.str "T")) ∧
    (∃ rf, createRouteFunction ⟨false, Option.none⟩ "" (.pylist ["GET"])
        .notSet .notSet defaultRouteMeta Option.none = .ok rf ∧
      rf.routeOf.route_params.response = .notSet) := by
  constructor
  · exact (unset_response_from_return_hint ⟨false, some (.str "T")⟩ ""
      ["GET"] .notSet defaultRouteMeta Option.none (by decide)).1 (.str "T") rfl
  · exact (unset_response_from_return_hint ⟨false, Option.none⟩ ""
      ["GET"] .notSet defaultRouteMeta Option.none (by decide)).2 rfl

/-- `C8`: whenever the build step succeeds, the produced route-function value
is the asynchronous variant exactly when the handler is declared
asynchronous, and the stored execution-mode flag agrees; in this pure model
the choice is a one-time function of the handler's declared mode alone. -/
theorem async_variant_iff_async_handler
    (f : ViewFunc) (path : String) (methods : MethodsArg) (auth : AuthArg)
    (response : RArg) (meta : RouteMeta) (perms : Option (List Atom))
    (rf : RouteFunctionV)
    (h : createRouteFunction f path methods auth response meta perms = .ok rf) :
    rf.isAsyncVariant = f.is_async ∧ rf.routeOf.is_async = f.is_async := by
  obtain ⟨r, hro, hrf⟩ :=
    createRouteFunction_ok_inv f path methods auth response meta perms rf h
  obtain ⟨ms, stored, _, _, _, _, hasync⟩ :=
    routeInit_ok_inv f path methods auth _ meta perms r hro
  subst hrf
  rw [isAsyncVariant_ite, routeOf_ite]
  exact ⟨hasync, hasync⟩

/-- Witness for `async_variant_iff_async_handler`: one asynchronous and one
synchronous handler. -/
theorem async_variant_iff_async_handler_witness :
    (∃ rf, createRouteFunction ⟨true, Option.none⟩ "" (.pylist ["GET"]) .notSet
        .notSet defaultRouteMeta Option.none = .ok rf ∧
      rf.isAsyncVariant = true) ∧
    (∃ rf, createRouteFunction ⟨false, Option.none⟩ "" (.pylist ["GET"]) .notSet
        .notSet defaultRouteMeta Option.none = .ok rf ∧
      rf.isAsyncVariant = false) := by
  constructor
  · exact ⟨_, rfl, (async_variant_iff_async_handler ⟨true, Option.none⟩ ""
      (.pylist ["GET"]) .notSet .notSet defaultRouteMeta Option.none _ rfl).1⟩
  · exact ⟨_, rfl, (async_variant_iff_async_handler ⟨false, Option.none⟩ ""
      (.pylist ["GET"]) .notSet .notSet defaultRouteMeta Option.none _ rfl).1⟩

/-- `C1`: the response-sequence normalization refines the spec's ordered
last-write-wins merge: for a mixed list whose tuples all have at least two
components and which contributes at least one pair, construction succeeds and
stores a mapping whose value at every status code is the one contributed by
the latest element bearing that code (later elements overwrite earlier
ones); elements of unrecognized kinds contribute nothing and cause no
error. -/
theorem response_sequence_last_write_wins
    (f : ViewFunc) (path : String) (ms : List String) (auth : AuthArg)
    (meta : RouteMeta) (perms : Option (List Atom)) (items : List RItem)
    (hm : ∀ m ∈ ms, pyUpper m ∈ ROUTE_METHODS)
    (ht : ∀ x ∈ items, x.isShortTuple = false)
    (hne : specContribs items ≠ []) :
    ∃ r d, routeInit f path (.pylist ms) auth (.pylist items) meta perms
        = .ok r ∧
      r.route_params.response = .mapping d ∧
      (∀ k, alookup d k = specLastWins (specContribs items) k) := by
  have hck : checkMethods (.pylist ms) = .ok (ms.map pyUpper) := by
    rw [checkMethods_eq, if_pos ((disallowedOf_eq_nil_iff ms).mpr hm)]
  have hnl := normList_ok_of_no_short items [] ht
  have hlook : ∀ k, alookup (updatePairs [] (specContribs items)) k
      = specLastWins (specContribs items) k := by
    intro k
    rw [alookup_updatePairs]
    exact oalt_none _
  have hdne2 : updatePairs [] (specContribs items) ≠ [] := by
    obtain ⟨p, hp⟩ := List.exists_mem_of_ne_nil _ hne
    have hnn := specLastWins_ne_none_of_mem _ p hp
    intro hdc
    have hl := hlook p.1
    rw [hdc] at hl
    exact hnn hl.symm
  have hdne : (updatePairs [] (specContribs items)).isEmpty = false := by
    cases hdc : updatePairs [] (specContribs items) with
    | nil => exact absurd hdc hdne2
    | cons q qs => rfl
  have hnr : normalizeResponse (.pylist items)
      = .ok (.mapping (updatePairs [] (specContribs items))) := by
    simp [normalizeResponse, hnl, hdne]
  exact ⟨_, updatePairs [] (specContribs items),
    routeInit_ok_parts f path _ auth _ meta perms _ _ hck hnr, rfl, hlook⟩

/-- Witness for `response_sequence_last_write_wins` at a concrete mixed list
with a 200-collision (the tuple's schema overwrites the dict's). -/
theorem response_sequence_last_write_wins_witness :
    ∃ r d, routeInit ⟨false, Option.none⟩ "" (.pylist ["GET"]) .notSet
        (.pylist [.pydict [((.int 200), (.str "A"))], .tup [(.int 200), (.str "B")],
                  .cr 404 (.str "C"), .other .none]) defaultRouteMeta Option.none
        = .ok r ∧
      r.route_params.response = .mapping d ∧
      (∀ k, alookup d k
        = specLastWins (specContribs [.pydict [((.int 200), (.str "A"))],
            .tup [(.int 200), (.str "B")], .cr 404 (.str "C"), .other .none]) k) :=
  response_sequence_last_write_wins ⟨false, Option.none⟩ "" ["GET"] .notSet
    defaultRouteMeta Option.none
    [.pydict [((.int 200), (.str "A"))], .tup [(.int 200), (.str "B")],
     .cr 404 (.str "C"), .other .none]
    (by decide) (by decide) (by decide)

/-- `C9` — amended: the stored normalized response is the unset sentinel, a
mapping with pairwise-distinct keys (typed-response, dict, and list inputs),
or — for any other single value — that original value passed through
unchanged (spec §4.1 shape 4); nothing forces mapping keys to be integers,
since dict keys and tuple first components are arbitrary values. -/
theorem stored_response_shape_invariant
    (f : ViewFunc) (path : String) (methods : MethodsArg) (auth : AuthArg)
    (response : RArg) (meta : RouteMeta) (perms : Option (List Atom)) (r : Route)
    (h : routeInit f path methods auth response meta perms = .ok r) :
    r.route_params.response = .notSet ∨
    (∃ d, r.route_params.response = .mapping d ∧ (dkeys d).Nodup) ∨
    (∃ v, response = .other v ∧ r.route_params.response = .passthrough v) := by
  obtain ⟨ms, stored, hm, hr, _, hresp, _⟩ :=
    routeInit_ok_inv f path methods auth response meta perms r h
  rw [hresp]
  cases response with
  | notSet =>
    left
    injection hr with h2
    exact h2.symm
  | cr st sch =>
    right; left
    injection hr with h2
    exact ⟨updateKV [] (.int st) sch, h2.symm,
      nodup_dkeys_updateKV [] (.int st) sch (by simp [dkeys])⟩
  | pydict d0 =>
    right; left
    injection hr with h2
    exact ⟨pyDictOf d0, h2.symm, nodup_dkeys_pyDictOf d0⟩
  | pylist items =>
    right; left
    cases hn : normList items [] with
    | error e =>
      simp only [normalizeResponse, hn] at hr
      cases hr
    | ok d =>
      simp only [normalizeResponse, hn] at hr
      by_cases hd : d.isEmpty = true
      · rw [if_pos hd] at hr
        cases hr
      · rw [if_neg hd] at hr
        injection hr with h2
        exact ⟨d, h2.symm, nodup_dkeys_normList items [] d hn (by simp [dkeys])⟩
  | other v =>
    right; right
    injection hr with h2
    exact ⟨v, rfl, h2.symm⟩

/-- `C9` — counterexample: a bare (non-typed-response, non-sequence)
`response` value is stored passed-through unchanged — neither the unset
sentinel nor a mapping — so the claimed "sentinel or integer-keyed mapping"
invariant fails. -/
theorem stored_response_passthrough_counterexample :
    ∃ r, routeInit ⟨false, Option.none⟩ "" (.pylist ["GET"]) .notSet
        (.other (.str "Schema")) defaultRouteMeta Option.none = .ok r ∧
      r.route_params.response = .passthrough (.str "Schema") ∧
      r.route_params.response ≠ .notSet ∧
      (∀ d, r.route_params.response ≠ .mapping d) := by
  refine ⟨_, rfl, rfl, by decide, ?_⟩
  intro d hc
  cases hc

/-- Witness for `stored_response_shape_invariant` at a concrete construction
whose stored mapping even carries a non-integer key. -/
theorem stored_response_shape_invariant_witness :
    ∃ r, routeInit ⟨false, Option.none⟩ "" (.pylist ["GET"]) .notSet
        (.pydict [((.str "x"), (.str "A")), ((.int 200), (.str "B"))])
        defaultRouteMeta Option.none = .ok r ∧
      (r.route_params.response = .notSet ∨
       (∃ d, r.route_params.response = .mapping d ∧ (dkeys d).Nodup) ∨
       (∃ v, (RArg.pydict [((.str "x"), (.str "A")), ((.int 200), (.str "B"))])
           = .other v ∧
         r.route_params.response = .passthrough v)) := by
  refine ⟨_, rfl, ?_⟩
  exact stored_response_shape_invariant ⟨false, Option.none⟩ "" (.pylist ["GET"])
    .notSet (.pydict [((.str "x"), (.str "A")), ((.int 200), (.str "B"))])
    defaultRouteMeta Option.none _ rfl

/-- `C10`: a response list containing a tuple with fewer than two components
makes construction fail with the `IndexError` escaping from the tuple
indexing — an error that is not the invalid-parameter kind — while for a
tuple with more than two components only the first two components are used
and the rest are ignored. -/
theorem short_tuple_index_error :
    (∀ (f : ViewFunc) (path : String) (ms : List String) (auth : AuthArg)
        (meta : RouteMeta) (perms : Option (List Atom)) (items : List RItem),
      (∀ m ∈ ms, pyUpper m ∈ ROUTE_METHODS) →
      (∃ x ∈ items, x.isShortTuple = true) →
      routeInit f path (.pylist ms) auth (.pylist items) meta perms
          = .error .indexError ∧
        RouteError.indexError.isInvalidParameter = false) ∧
    (∀ (acc : List (Atom × Atom)) (k v : Atom) (rest : List Atom),
      normStep acc (.tup (k :: v :: rest)) = normStep acc (.tup [k, v])) := by
  constructor
  · intro f path ms auth meta perms items hm hshort
    have hck : checkMethods (.pylist ms) = .ok (ms.map pyUpper) := by
      rw [checkMethods_eq, if_pos ((disallowedOf_eq_nil_iff ms).mpr hm)]
    have hnl := normList_error_of_short items [] hshort
    have hnr : normalizeResponse (.pylist items) = .error .indexError := by
      simp [normalizeResponse, hnl]
    exact ⟨routeInit_error_response f path _ auth _ meta perms _ _ hck hnr, rfl⟩
  · intro acc k v rest
    rfl

/-- Witness for `short_tuple_index_error`: an empty tuple aborts construction
with the index error, and a three-component tuple normalizes exactly like its
two-component prefix. -/
theorem short_tuple_index_error_witness :
    (routeInit ⟨false, Option.none⟩ "" (.pylist ["GET"]) .notSet
        (.pylist [.pydict [((.int 200), (.str "A"))], .tup []]) defaultRouteMeta
        Option.none = .error .indexError ∧
      RouteError.indexError.isInvalidParameter = false) ∧
    normStep [] (.tup [(.int 200), (.str "B"), (.str "ignored")])
      = normStep [] (.tup [(.int 200), (.str "B")]) := by
  constructor
  · exact short_tuple_index_error.1 ⟨false, Option.none⟩ "" ["GET"] .notSet
      defaultRouteMeta Option.none [.pydict [((.int 200), (.str "A"))], .tup []]
      (by decide) ⟨.tup [], by decide, rfl⟩
  · exact short_tuple_index_error.2 [] (.int 200) (.str "B") [(.str "ignored")]

end NinjaExtraRoute
